import Mathlib

/-!
# Copycat Chess Engine — verification of spec claims

Shallow embedding of the parts of the `copycat_chess_engine` repository that
the claims speak about:

* `Copycat.detect_game_phase` — `src/builds/v1.0_copycat_analyzer/src/core/engine.py`,
  `CopycatChessEngine.detect_game_phase`.
* `Copycat.search_best_move` / `Copycat.select_move` —
  `src/builds/v1.0_copycat_analyzer/search.py`, `SearchManager.search_best_move`,
  and `engine.py`, `CopycatChessEngine.select_move`.
* `UCI.calculate_think_time` / `UCI.go_bestmove_line` —
  `src/src/core/uci_interface.py`, `CopycatUCI.calculate_think_time` and `go`.
* `EngineV3.select_move` / `EngineV3.filter_tactical_blunders` —
  `src/src/core/engine_v3.py`, `CopycatEngineV3.select_move` and
  `_filter_tactical_blunders`.
* `PatternExtractor.*` — `src/analysis/pattern_extractor.py`.

Modelling conventions: Python floats are modelled by `ℚ`; Python's
`round(x, 3)` by round-half-to-even on the rational value (`round3`);
Python's `int(x)` truncation toward zero by `py_int`; a Python function
that can raise is an `Except`; `None` is `Option.none`; Python's stable
`sorted`/`list.sort` is `List.mergeSort` (stable); board-dependent
predicates and scores that the claims do not constrain (`is_capture`,
`score_candidate`, randomness, ...) are abstracted as explicit function
parameters, so theorems quantify over every behaviour they could have.
-/

/-- A chess move, identified by its UCI string (the only attribute the
modelled code paths inspect). `chess.Move.null()` has UCI string "0000". -/
structure Move where
  uci : String
deriving DecidableEq, Repr

/-- `chess.Move.null()` — the null-move sentinel. -/
def Move.null : Move := ⟨"0000"⟩

/-- Python's `int(x)` on a float: truncation toward zero. -/
def py_int (q : ℚ) : ℤ :=
  if 0 ≤ q then ⌊q⌋ else -⌊-q⌋

/-- Round-half-to-even to the nearest integer, the rounding mode of
Python's builtin `round`. -/
def round_half_even (q : ℚ) : ℤ :=
  if q - ⌊q⌋ < 1/2 then ⌊q⌋
  else if 1/2 < q - ⌊q⌋ then ⌊q⌋ + 1
  else if ⌊q⌋ % 2 = 0 then ⌊q⌋ else ⌊q⌋ + 1

/-- Python's `round(x, 3)`: round to three decimal places. -/
def round3 (q : ℚ) : ℚ :=
  (round_half_even (q * 1000) : ℚ) / 1000

namespace Copycat

/-- The data of a `chess.Board` that `detect_game_phase` reads: the piece
counts of each non-king piece type for each colour, the four castling
rights, and the full-move number. -/
structure Board where
  white_pawns : ℕ
  black_pawns : ℕ
  white_knights : ℕ
  black_knights : ℕ
  white_bishops : ℕ
  black_bishops : ℕ
  white_rooks : ℕ
  black_rooks : ℕ
  white_queens : ℕ
  black_queens : ℕ
  white_kingside_castling : Bool
  white_queenside_castling : Bool
  black_kingside_castling : Bool
  black_queenside_castling : Bool
  fullmove_number : ℕ
deriving DecidableEq, Repr

/-- `piece_count` of `detect_game_phase`: both colours' pawns, knights,
bishops, rooks and queens (kings excluded). -/
def Board.piece_count (b : Board) : ℕ :=
  b.white_pawns + b.black_pawns + b.white_knights + b.black_knights +
    b.white_bishops + b.black_bishops + b.white_rooks + b.black_rooks +
    b.white_queens + b.black_queens

/-- `queen_count` of `detect_game_phase`. -/
def Board.queen_count (b : Board) : ℕ :=
  b.white_queens + b.black_queens

/-- `castling_rights` of `detect_game_phase`: `any` of the four rights. -/
def Board.castling_rights (b : Board) : Bool :=
  b.white_kingside_castling || b.white_queenside_castling ||
    b.black_kingside_castling || b.black_queenside_castling

/-- `CopycatChessEngine.detect_game_phase`
(`src/builds/v1.0_copycat_analyzer/src/core/engine.py`). -/
def detect_game_phase (b : Board) : String :=
  if 14 ≤ b.piece_count ∧ b.castling_rights = true ∧ b.fullmove_number ≤ 15 then
    "opening"
  else if b.piece_count ≤ 10 ∨ b.queen_count = 0 then
    "endgame"
  else
    "middlegame"

/-- `MoveCandidate` (`src/builds/v1.0_copycat_analyzer/search.py`): a move
with its overall score and component scores, all initialised to `0.0` by
the constructor. -/
structure MoveCandidate where
  move : Move
  overall_score : ℚ
  piece_preference_score : ℚ
  square_preference_score : ℚ
  opening_score : ℚ
  decisiveness_score : ℚ
  positional_score : ℚ
  tactical_score : ℚ
deriving DecidableEq, Repr

/-- `MoveCandidate.__init__`: every score starts at `0.0`. -/
def MoveCandidate.init (m : Move) : MoveCandidate :=
  ⟨m, 0, 0, 0, 0, 0, 0, 0⟩

/-- `SearchManager.search_best_move`
(`src/builds/v1.0_copycat_analyzer/search.py`).

`score` abstracts `score_candidate`'s computation of `overall_score`
(a function of the move, the board, the phase and the weights; board,
phase and weights are fixed during one call so only the move varies),
and `choose` abstracts the weighted random index drawn by
`np.random.choice` over the top candidates (`top_move_count = 3`).
Zero legal moves return `(None, [])`; exactly one legal move is returned
directly with a freshly constructed (never scored) candidate. -/
def search_best_move (legal_moves : List Move) (score : Move → ℚ)
    (choose : ℕ) : Option Move × List MoveCandidate :=
  match legal_moves with
  | [] => (none, [])
  | [m] => (some m, [MoveCandidate.init m])
  | _ =>
    let candidates := legal_moves.map fun m =>
      { MoveCandidate.init m with overall_score := score m }
    let sorted := candidates.mergeSort fun a b =>
      decide (b.overall_score ≤ a.overall_score)
    let top_candidates := sorted.take 3
    match top_candidates.get? (choose % top_candidates.length) with
    | some c => (some c.move, sorted)
    | none => (none, sorted)

/-- `CopycatChessEngine.select_move`
(`src/builds/v1.0_copycat_analyzer/src/core/engine.py`): delegates to
`search_best_move` and turns a `None` best move into `chess.Move.null()`. -/
def select_move (legal_moves : List Move) (score : Move → ℚ)
    (choose : ℕ) : Move :=
  match (search_best_move legal_moves score choose).1 with
  | none => Move.null
  | some m => m

end Copycat

namespace UCI

/-- `moves_remaining` estimate of `CopycatUCI.calculate_think_time`
(`src/src/core/uci_interface.py`) when `movestogo` is absent: 40 in the
opening, 20 in the middlegame, 10 otherwise. -/
def moves_remaining_for (phase : String) : ℕ :=
  if phase = "opening" then 40
  else if phase = "middlegame" then 20
  else 10

/-- `CopycatUCI.calculate_think_time` (`src/src/core/uci_interface.py`).

Arguments: `movetime` from the `go` command; `remaining`/`inc` are the
side-to-move's clock and increment (`wtime`/`winc` when White is to move
and `wtime` was given, `btime`/`binc` for Black; `remaining = none` is the
`else: return default_think_time` branch); `movestogo` from the `go`
command; `phase` is `engine.detect_game_phase(board)`; `timing_score`
abstracts `engine.calculate_move_timing_score(board, remaining/1000)`.
Times are in milliseconds. -/
def calculate_think_time (movetime : Option ℤ) (remaining : Option ℚ)
    (inc : Option ℚ) (movestogo : Option ℚ) (phase : String)
    (timing_score : ℚ) : ℤ :=
  match movetime with
  | some m => m
  | none =>
    match remaining with
    | none => 1000
    | some remaining_time =>
      let increment := inc.getD 0
      let moves_remaining : ℚ :=
        match movestogo with
        | some mtg => mtg
        | none => (moves_remaining_for phase : ℚ)
      let base_time := remaining_time / moves_remaining
      let time_to_use :=
        if 0 < increment then base_time + increment * (3/4)
        else base_time * (3/4)
      let time_to_use := time_to_use * timing_score
      let time_to_use := max (time_to_use - 50) 1
      let max_time := remaining_time / 3
      py_int (min time_to_use max_time)

/-- The `bestmove` line printed at the end of `CopycatUCI.go`
(`src/src/core/uci_interface.py`): the engine's `select_move` result when
it is a real move, else the `"bestmove 0000"` fallback
(`chess.Move.null()` is falsy in Python, so both the falsy check and the
inequality collapse to comparing with the null move). -/
def go_bestmove_line (legal_moves : List Move) (score : Move → ℚ)
    (choose : ℕ) : String :=
  let best_move := Copycat.select_move legal_moves score choose
  if best_move ≠ Move.null then "bestmove " ++ best_move.uci
  else "bestmove 0000"

end UCI

namespace EngineV3

/-- `CopycatEngineV3._filter_tactical_blunders`
(`src/src/core/engine_v3.py`). `is_checkmate_after m` abstracts
`board_copy.is_checkmate()` after pushing `m`; `loses_material_badly`
abstracts `_loses_material_badly(board, m)`. A move is kept when neither
holds; if that eliminates every move, the original list is returned. -/
def filter_tactical_blunders (is_checkmate_after : Move → Bool)
    (loses_material_badly : Move → Bool) (moves : List Move) : List Move :=
  let safe_moves := moves.filter fun m =>
    !is_checkmate_after m && !loses_material_badly m
  if safe_moves.isEmpty then moves else safe_moves

/-- `CopycatEngineV3._select_final_move` (`src/src/core/engine_v3.py`):
sort the scored moves by score descending, keep the top 3, and pick one
of them by weighted randomness — abstracted here as an index `pick`
into the top list. Raises `ValueError` on an empty list. -/
def select_final_move (scored_moves : List (Move × ℚ)) (pick : ℕ) :
    Except String Move :=
  match scored_moves with
  | [] => Except.error "No scored moves available"
  | _ =>
    let sorted := scored_moves.mergeSort fun a b => decide (b.2 ≤ a.2)
    let top_moves := sorted.take 3
    match top_moves.get? (pick % top_moves.length) with
    | some p => Except.ok p.1
    | none => Except.error "No scored moves available"

/-- `CopycatEngineV3.select_move` (`src/src/core/engine_v3.py`): raises
`ValueError("No legal moves available")` on zero legal moves, returns the
single legal move directly, and otherwise filters blunders, scores
(`score` abstracts `_score_by_patterns` on the fixed board) and selects. -/
def select_move (is_checkmate_after loses_material_badly : Move → Bool)
    (score : Move → ℚ) (pick : ℕ) (legal_moves : List Move) :
    Except String Move :=
  match legal_moves with
  | [] => Except.error "No legal moves available"
  | [m] => Except.ok m
  | _ =>
    let safe_moves :=
      filter_tactical_blunders is_checkmate_after loses_material_badly
        legal_moves
    let scored_moves := safe_moves.map fun m => (m, score m)
    select_final_move scored_moves pick

end EngineV3

namespace PatternExtractor

/-- One value of `self.opening_patterns`
(`src/analysis/pattern_extractor.py`): per opening key, an occurrence
count and accumulated win contribution (`pattern['wins'] += result`,
with 1 / 0.5 / 0 per game outcome, hence rational). -/
structure OpeningData where
  count : ℕ
  wins : ℚ
deriving DecidableEq, Repr

/-- One compressed opening entry produced by `_compress_opening_patterns`. -/
structure OpeningEntry where
  frequency : ℚ
  success : ℚ
  weight : ℚ
deriving DecidableEq, Repr

/-- The keep test of `_compress_opening_patterns`: sample size at least 10
and success rate at least 0.45. -/
def opening_keep (d : OpeningData) : Bool :=
  decide (10 ≤ d.count) && decide (45/100 ≤ d.wins / (d.count : ℚ))

/-- The compressed entry `_compress_opening_patterns` stores for a kept
key: `frequency = min(count/1000, 1.0)`, `success = round(rate, 3)`,
`weight = round(rate * (count/100), 3)` with `rate = wins/count`. -/
def opening_entry_of (d : OpeningData) : OpeningEntry :=
  let success_rate := d.wins / (d.count : ℚ)
  ⟨min ((d.count : ℚ) / 1000) 1,
    round3 success_rate,
    round3 (success_rate * ((d.count : ℚ) / 100))⟩

/-- `PatternExtractor._compress_opening_patterns`
(`src/analysis/pattern_extractor.py`): filter by `opening_keep`, build the
entries, sort by `weight` descending (Python's stable `sorted` with
`reverse=True`), keep the first 500. The `dict` of accumulated patterns is
modelled as an association list. -/
def compress_opening_patterns (patterns : List (String × OpeningData)) :
    List (String × OpeningEntry) :=
  let compressed := (patterns.filter fun kd => opening_keep kd.2).map
    fun kd => (kd.1, opening_entry_of kd.2)
  let sorted_patterns := compressed.mergeSort fun a b =>
    decide (b.2.weight ≤ a.2.weight)
  sorted_patterns.take 500

/-- One value of `self.endgame_patterns`: per material signature, an
occurrence count and accumulated success contribution. -/
structure EndgameData where
  count : ℕ
  success : ℚ
deriving DecidableEq, Repr

/-- `PatternExtractor._compress_endgame_patterns`: keep signatures with at
least 5 samples, store `round(success/count, 3)`, sort by that value
descending, keep the first 50. -/
def compress_endgame_patterns (patterns : List (String × EndgameData)) :
    List (String × ℚ) :=
  let compressed := (patterns.filter fun kd => decide (5 ≤ kd.2.count)).map
    fun kd => (kd.1, round3 (kd.2.success / (kd.2.count : ℚ)))
  let sorted_endgames := compressed.mergeSort fun a b => decide (b.2 ≤ a.2)
  sorted_endgames.take 50

/-- `self.tactical_patterns` (`defaultdict(int)`): only the keys
`'captures'`, `'checks'` and `'development'` are ever incremented. -/
structure TacticalCounters where
  captures : ℕ
  checks : ℕ
  development : ℕ
deriving DecidableEq, Repr

/-- The tactical features of one observed move that
`_analyze_tactical_features` tests: `board.is_capture(move)`, whether the
move gives check after being pushed, and whether it moves a knight or
bishop off a home square (b1/g1/b8/g8). -/
structure MoveFeatures where
  is_capture : Bool
  gives_check : Bool
  develops_minor : Bool
deriving DecidableEq, Repr

/-- `PatternExtractor._analyze_tactical_features`: bump each counter whose
feature holds for the move (a move may bump several counters, or none). -/
def analyze_tactical_features (t : TacticalCounters) (m : MoveFeatures) :
    TacticalCounters :=
  let t := if m.is_capture then { t with captures := t.captures + 1 } else t
  let t := if m.gives_check then { t with checks := t.checks + 1 } else t
  if m.develops_minor then { t with development := t.development + 1 } else t

/-- The tactical counters accumulated over a whole corpus of observed
moves (every move of every game passes through
`_analyze_tactical_features`). -/
def accumulate_tactical_patterns (moves : List MoveFeatures) :
    TacticalCounters :=
  moves.foldl analyze_tactical_features ⟨0, 0, 0⟩

/-- The compressed tactical block produced by
`_compress_tactical_patterns`. -/
structure TacticalEntry where
  capture_frequency : ℚ
  check_frequency : ℚ
  development_frequency : ℚ
  tactical_weight : ℚ
deriving DecidableEq, Repr

/-- `PatternExtractor._compress_tactical_patterns`: `total_moves` is
`sum(self.tactical_patterns.values())`, i.e. the sum of the three
counters; an empty total returns `{}` (here `none`); otherwise each
frequency is the counter divided by that sum, rounded to 3 places, with
the constant `tactical_weight = 1.5`. -/
def compress_tactical_patterns (t : TacticalCounters) :
    Option TacticalEntry :=
  let total_moves := t.captures + t.checks + t.development
  if total_moves = 0 then none
  else some
    ⟨round3 ((t.captures : ℚ) / (total_moves : ℚ)),
      round3 ((t.checks : ℚ) / (total_moves : ℚ)),
      round3 ((t.development : ℚ) / (total_moves : ℚ)),
      3/2⟩

/-- The claim's reading of tactical compression, written from the spec's
words for comparison with `compress_tactical_patterns`: divide each
counter by the TOTAL NUMBER OF MOVES OBSERVED in the corpus. -/
def tactical_frequencies_spec_version (moves : List MoveFeatures) :
    Option TacticalEntry :=
  let t := accumulate_tactical_patterns moves
  if moves.length = 0 then none
  else some
    ⟨round3 ((t.captures : ℚ) / (moves.length : ℚ)),
      round3 ((t.checks : ℚ) / (moves.length : ℚ)),
      round3 ((t.development : ℚ) / (moves.length : ℚ)),
      3/2⟩

/-- The endgame-pattern store `self.endgame_patterns`
(`defaultdict(lambda: {'count': 0, 'success': 0})`), modelled as a total
function from material signatures to data. -/
def EndgameStore : Type := String → EndgameData

/-- The fresh store: every signature maps to `{'count': 0, 'success': 0}`. -/
def empty_endgame_store : EndgameStore := fun _ => ⟨0, 0⟩

/-- The success contribution `_analyze_endgame_patterns` adds for one
game: for `1-0`, 1 when White is to move in the final position else 0;
for `0-1` the reverse; for `1/2-1/2`, 0.5. `final_turn` is `board.turn`
(true = White to move) at the final position. -/
def success_increment (result : String) (final_turn : Bool) : ℚ :=
  if result = "1-0" then (if final_turn then 1 else 0)
  else if result = "0-1" then (if final_turn then 0 else 1)
  else if result = "1/2-1/2" then 1/2
  else 0

/-- `PatternExtractor._analyze_endgame_patterns`: only when the final
position has at most 10 pieces (kings included; `len(board.piece_map())`)
is the signature's count bumped and its success contribution added. -/
def analyze_endgame_patterns (store : EndgameStore) (piece_count : ℕ)
    (signature : String) (result : String) (final_turn : Bool) :
    EndgameStore :=
  if piece_count ≤ 10 then
    fun k =>
      if k = signature then
        ⟨(store signature).count + 1,
          (store signature).success + success_increment result final_turn⟩
      else store k
  else store

/-- The data of one parsed game that the endgame path of
`_extract_game_patterns` reads: the `Result` header, the number of
mainline plies, and the final position's total piece count, material
signature (`_get_material_signature`) and side to move. -/
structure GameSummary where
  result : String
  ply_count : ℕ
  final_piece_count : ℕ
  final_signature : String
  final_turn : Bool
deriving DecidableEq, Repr

/-- The endgame-accumulation path of
`PatternExtractor._extract_game_patterns`: games without a `1-0`, `0-1`
or `1/2-1/2` result are skipped outright; otherwise, when the mainline
exceeds 20 plies, `_analyze_endgame_patterns` runs on the final position. -/
def extract_game_endgame (store : EndgameStore) (g : GameSummary) :
    EndgameStore :=
  if g.result = "1-0" ∨ g.result = "0-1" ∨ g.result = "1/2-1/2" then
    if 20 < g.ply_count then
      analyze_endgame_patterns store g.final_piece_count g.final_signature
        g.result g.final_turn
    else store
  else store

end PatternExtractor

/-!
## Concrete inputs used to instantiate and refute claims
-/

/-- The position after 1.e4 e5 2.Qh5 g6 3.Qxe5+ Qe7 4.Qxe7+ Bxe7 (FEN
`rnb1k1nr/ppppbp1p/6p1/8/4P3/8/PPPP1PPP/RNB1KBNR w KQkq - 0 5`): both
queens are gone, 27 non-king pieces remain, every castling right is
intact, and it is full move 5. -/
def queens_traded_board : Copycat.Board :=
  { white_pawns := 8, black_pawns := 7
    white_knights := 2, black_knights := 2
    white_bishops := 2, black_bishops := 2
    white_rooks := 2, black_rooks := 2
    white_queens := 0, black_queens := 0
    white_kingside_castling := true, white_queenside_castling := true
    black_kingside_castling := true, black_queenside_castling := true
    fullmove_number := 5 }

/-- A two-move corpus: one capture (neither check nor development) and one
quiet move with no tactical feature at all. -/
def capture_then_quiet : List PatternExtractor.MoveFeatures :=
  [⟨true, false, false⟩, ⟨false, false, false⟩]

/-- A decisive 30-ply game whose final position still has 20 pieces on the
board. -/
def long_game_many_pieces : PatternExtractor.GameSummary :=
  ⟨"1-0", 30, 20, "1v1_5_2v2_4_2v2_3", true⟩

/-- A decisive 30-ply game whose final position has 8 pieces left. -/
def long_game_few_pieces : PatternExtractor.GameSummary :=
  ⟨"1-0", 30, 8, "1v0_5_1v1_4", true⟩

/-- A one-key accumulated opening table: the key was seen 12 times with a
win contribution of 7 (success rate 7/12 = 0.58333...). -/
def sample_opening_store : List (String × PatternExtractor.OpeningData) :=
  [("1_e4", ⟨12, 7⟩)]

/-!
## Theorems
-/

/-- C1 (counterexample). The claim's "Endgame exactly when piece count
≤ 10 OR no queens remain" is false: in `queens_traded_board` no queens
remain, yet `detect_game_phase` returns `"opening"`, because the opening
test is checked first and takes priority. -/
theorem C1_phase_counterexample :
    Copycat.detect_game_phase queens_traded_board = "opening" ∧
      queens_traded_board.queen_count = 0 ∧
      Copycat.detect_game_phase queens_traded_board ≠ "endgame" := by
  refine ⟨by decide, by decide, by decide⟩

/-- C1 (amended). The classifier returns `"opening"` iff piece count
≥ 14 ∧ some castling right ∧ full-move ≤ 15; `"endgame"` iff the opening
condition FAILS and (piece count ≤ 10 ∨ no queens); `"middlegame"`
otherwise. -/
theorem C1_phase_characterization (b : Copycat.Board) :
    (Copycat.detect_game_phase b = "opening" ↔
      (14 ≤ b.piece_count ∧ b.castling_rights = true ∧ b.fullmove_number ≤ 15)) ∧
    (Copycat.detect_game_phase b = "endgame" ↔
      (¬(14 ≤ b.piece_count ∧ b.castling_rights = true ∧ b.fullmove_number ≤ 15) ∧
        (b.piece_count ≤ 10 ∨ b.queen_count = 0))) ∧
    (Copycat.detect_game_phase b = "middlegame" ↔
      (¬(14 ≤ b.piece_count ∧ b.castling_rights = true ∧ b.fullmove_number ≤ 15) ∧
        ¬(b.piece_count ≤ 10 ∨ b.queen_count = 0))) := by
  have hoe : ("opening" : String) ≠ "endgame" := by decide
  have hom : ("opening" : String) ≠ "middlegame" := by decide
  have hem : ("endgame" : String) ≠ "middlegame" := by decide
  unfold Copycat.detect_game_phase
  split_ifs with h1 h2
  · exact ⟨by simp [h1], by simp [hoe, h1], by simp [hom, h1]⟩
  · exact ⟨by simp [hoe.symm, h1], by simp [h1, h2], by simp [hem, h1, h2]⟩
  · exact ⟨by simp [hom.symm, h1], by simp [hem.symm, h1, h2], by simp [h1, h2]⟩

/-- C2 (counterexample). `CopycatEngineV3.select_move` does NOT return the
null-move sentinel on zero legal moves: it raises
`ValueError("No legal moves available")`, whatever its abstracted
predicates, scores and randomness do. -/
theorem C2_engine_v3_raises_counterexample :
    EngineV3.select_move (fun _ => false) (fun _ => false) (fun _ => 0) 0 []
      = Except.error "No legal moves available" := rfl

/-- C2 (amended). On zero legal moves the v1.0 engine's `select_move`
returns the null-move sentinel and the UCI `go` handler emits
`bestmove 0000` (no exception reaches the protocol layer on that path);
the v3 engine's `select_move`, by contrast, raises
`ValueError("No legal moves available")`. -/
theorem C2_no_legal_moves_amended :
    (∀ (score : Move → ℚ) (choose : ℕ),
      Copycat.select_move [] score choose = Move.null ∧
        UCI.go_bestmove_line [] score choose = "bestmove 0000") ∧
    (∀ (cm loses : Move → Bool) (score : Move → ℚ) (pick : ℕ),
      EngineV3.select_move cm loses score pick [] =
        Except.error "No legal moves available") := by
  refine ⟨fun score choose => ⟨rfl, ?_⟩, fun _ _ _ _ => rfl⟩
  simp [UCI.go_bestmove_line, Copycat.select_move, Copycat.search_best_move]

/-- C5 (confirmed). Whatever the accumulated corpus, the compressed
opening table has at most 500 entries and the compressed endgame table at
most 50. -/
theorem C5_compression_caps
    (op : List (String × PatternExtractor.OpeningData))
    (eg : List (String × PatternExtractor.EndgameData)) :
    (PatternExtractor.compress_opening_patterns op).length ≤ 500 ∧
      (PatternExtractor.compress_endgame_patterns eg).length ≤ 50 := by
  constructor
  · simp only [PatternExtractor.compress_opening_patterns]
    exact List.length_take_le _ _
  · simp only [PatternExtractor.compress_endgame_patterns]
    exact List.length_take_le _ _

/-- C7 (confirmed). With exactly one legal move, `search_best_move`
returns that move, the result does not depend on the scoring function nor
on the random draw (so the move is returned with probability 1), and the
single returned candidate is the freshly initialised one: no component
score was ever computed on it. -/
theorem C7_forced_move_no_scoring (m : Move) (f g : Move → ℚ) (r s : ℕ) :
    (Copycat.search_best_move [m] f r).1 = some m ∧
      Copycat.search_best_move [m] f r = Copycat.search_best_move [m] g s ∧
      (Copycat.search_best_move [m] f r).2 = [Copycat.MoveCandidate.init m] :=
  ⟨rfl, rfl, rfl⟩

/-- C9 (confirmed). For a non-empty move list, the tactical-blunder filter
returns a non-empty sublist of its input, and when its safety checks
would eliminate every move it returns the original list unchanged. -/
theorem C9_filter_nonempty_sublist (cm loses : Move → Bool)
    (moves : List Move) (h : moves ≠ []) :
    EngineV3.filter_tactical_blunders cm loses moves ≠ [] ∧
      List.Sublist (EngineV3.filter_tactical_blunders cm loses moves) moves ∧
      ((moves.filter fun m => !cm m && !loses m) = [] →
        EngineV3.filter_tactical_blunders cm loses moves = moves) := by
  unfold EngineV3.filter_tactical_blunders
  by_cases hs : (moves.filter fun m => !cm m && !loses m).isEmpty
  · rw [if_pos hs]
    exact ⟨h, List.Sublist.refl moves, fun _ => rfl⟩
  · rw [if_neg hs]
    refine ⟨?_, List.filter_sublist moves, fun hnil => absurd ?_ hs⟩
    · intro hnil
      rw [hnil] at hs
      exact hs rfl
    · rw [hnil]
      rfl

/-- C9 witness: the filter instantiated where the checkmate test rejects
every move, on the singleton list `[Move.null]`. -/
theorem C9_filter_nonempty_sublist_witness :
    EngineV3.filter_tactical_blunders (fun _ => true) (fun _ => false)
        [Move.null] ≠ [] ∧
      List.Sublist
        (EngineV3.filter_tactical_blunders (fun _ => true) (fun _ => false)
          [Move.null]) [Move.null] ∧
      (([Move.null].filter fun m =>
          !(fun _ => true) m && !(fun _ => false) m) = [] →
        EngineV3.filter_tactical_blunders (fun _ => true) (fun _ => false)
          [Move.null] = [Move.null]) :=
  C9_filter_nonempty_sublist (fun _ => true) (fun _ => false) [Move.null]
    (by decide)

/-- C10 (confirmed). When `movetime` is given, `calculate_think_time`
returns it unchanged, whatever the clock looks like — including when it
exceeds one-third of the remaining time, as the concrete instance with
`movetime 10000` against `wtime 3000` shows. -/
theorem C10_movetime_exact (m : ℤ) (remaining inc movestogo : Option ℚ)
    (phase : String) (timing_score : ℚ) :
    UCI.calculate_think_time (some m) remaining inc movestogo phase
        timing_score = m ∧
      UCI.calculate_think_time (some 10000) (some 3000) none none
        "opening" 1 = 10000 ∧
      (3000 : ℚ) / 3 < 10000 :=
  ⟨rfl, rfl, by norm_num⟩

/-- Helper: folding `analyze_tactical_features` counts, in each counter,
exactly the moves with that feature. -/
theorem foldl_analyze_tactical_eq
    (moves : List PatternExtractor.MoveFeatures)
    (t : PatternExtractor.TacticalCounters) :
    moves.foldl PatternExtractor.analyze_tactical_features t =
      ⟨t.captures + (moves.filter fun m => m.is_capture).length,
        t.checks + (moves.filter fun m => m.gives_check).length,
        t.development + (moves.filter fun m => m.develops_minor).length⟩ := by
  induction moves generalizing t with
  | nil => simp
  | cons m ms ih =>
    rw [List.foldl_cons, ih]
    unfold PatternExtractor.analyze_tactical_features
    by_cases h1 : m.is_capture <;> by_cases h2 : m.gives_check <;>
      by_cases h3 : m.develops_minor <;>
      simp [h1, h2, h3, List.filter_cons,
        PatternExtractor.TacticalCounters.mk.injEq] <;> omega

/-- C4 (counterexample). On a corpus of two observed moves — one capture
and one featureless quiet move — the code reports a capture frequency of
1 (the counter divided by the counter sum, 1/1), while the claim's
"divide by the total number of moves observed" yields 1/2. -/
theorem C4_denominator_counterexample :
    PatternExtractor.compress_tactical_patterns
        (PatternExtractor.accumulate_tactical_patterns capture_then_quiet) =
      some ⟨1, 0, 0, 3/2⟩ ∧
    PatternExtractor.tactical_frequencies_spec_version capture_then_quiet =
      some ⟨1/2, 0, 0, 3/2⟩ ∧
    PatternExtractor.compress_tactical_patterns
        (PatternExtractor.accumulate_tactical_patterns capture_then_quiet) ≠
      PatternExtractor.tactical_frequencies_spec_version
        capture_then_quiet := by
  have hacc : PatternExtractor.accumulate_tactical_patterns
      capture_then_quiet = ⟨1, 0, 0⟩ := rfl
  refine ⟨?_, ?_, ?_⟩
  · rw [hacc]
    unfold PatternExtractor.compress_tactical_patterns
    norm_num [round3, round_half_even,
      PatternExtractor.TacticalEntry.mk.injEq]
  · unfold PatternExtractor.tactical_frequencies_spec_version
    rw [hacc]
    norm_num [capture_then_quiet, round3, round_half_even,
      PatternExtractor.TacticalEntry.mk.injEq]
  · rw [hacc]
    unfold PatternExtractor.compress_tactical_patterns
      PatternExtractor.tactical_frequencies_spec_version
    rw [hacc]
    norm_num [capture_then_quiet, round3, round_half_even,
      PatternExtractor.TacticalEntry.mk.injEq]

/-- C4 (amended). The tactical frequencies divide each counter by the SUM
OF THE THREE COUNTERS (capture, check and development counts of the
corpus) — not by the number of observed moves — round to three decimal
places, and attach the constant `tactical_weight = 1.5`. -/
theorem C4_sum_of_counters_denominator
    (moves : List PatternExtractor.MoveFeatures)
    (h : (moves.filter fun m => m.is_capture).length +
        (moves.filter fun m => m.gives_check).length +
        (moves.filter fun m => m.develops_minor).length ≠ 0) :
    PatternExtractor.compress_tactical_patterns
        (PatternExtractor.accumulate_tactical_patterns moves) =
      some
        ⟨round3 (((moves.filter fun m => m.is_capture).length : ℚ) /
            (((moves.filter fun m => m.is_capture).length +
              (moves.filter fun m => m.gives_check).length +
              (moves.filter fun m => m.develops_minor).length : ℕ) : ℚ)),
          round3 (((moves.filter fun m => m.gives_check).length : ℚ) /
            (((moves.filter fun m => m.is_capture).length +
              (moves.filter fun m => m.gives_check).length +
              (moves.filter fun m => m.develops_minor).length : ℕ) : ℚ)),
          round3 (((moves.filter fun m => m.develops_minor).length : ℚ) /
            (((moves.filter fun m => m.is_capture).length +
              (moves.filter fun m => m.gives_check).length +
              (moves.filter fun m => m.develops_minor).length : ℕ) : ℚ)),
          3/2⟩ := by
  have hacc := foldl_analyze_tactical_eq moves ⟨0, 0, 0⟩
  unfold PatternExtractor.accumulate_tactical_patterns
  rw [hacc]
  unfold PatternExtractor.compress_tactical_patterns
  simp only [Nat.zero_add]
  rw [if_neg h]

/-- C4 witness: the amended theorem on the two-move corpus, where the
counter sum is 1 and the capture frequency is 1/1 = 1. -/
theorem C4_sum_of_counters_denominator_witness :
    PatternExtractor.compress_tactical_patterns
        (PatternExtractor.accumulate_tactical_patterns capture_then_quiet) =
      some
        ⟨round3 (((capture_then_quiet.filter
              fun m => m.is_capture).length : ℚ) /
            (((capture_then_quiet.filter fun m => m.is_capture).length +
              (capture_then_quiet.filter fun m => m.gives_check).length +
              (capture_then_quiet.filter
                fun m => m.develops_minor).length : ℕ) : ℚ)),
          round3 (((capture_then_quiet.filter
              fun m => m.gives_check).length : ℚ) /
            (((capture_then_quiet.filter fun m => m.is_capture).length +
              (capture_then_quiet.filter fun m => m.gives_check).length +
              (capture_then_quiet.filter
                fun m => m.develops_minor).length : ℕ) : ℚ)),
          round3 (((capture_then_quiet.filter
              fun m => m.develops_minor).length : ℚ) /
            (((capture_then_quiet.filter fun m => m.is_capture).length +
              (capture_then_quiet.filter fun m => m.gives_check).length +
              (capture_then_quiet.filter
                fun m => m.develops_minor).length : ℕ) : ℚ)),
          3/2⟩ :=
  C4_sum_of_counters_denominator capture_then_quiet (by decide)

/-- C6 (counterexample). A decisive game of 30 plies (> 20) whose final
position still holds 20 pieces accumulates NOTHING: its signature's entry
stays at count 0, because `_analyze_endgame_patterns` only records
positions with at most 10 pieces. -/
theorem C6_threshold_counterexample :
    20 < long_game_many_pieces.ply_count ∧
      PatternExtractor.extract_game_endgame
          PatternExtractor.empty_endgame_store long_game_many_pieces
          long_game_many_pieces.final_signature =
        ⟨0, 0⟩ := by
  constructor
  · decide
  · unfold PatternExtractor.extract_game_endgame
      PatternExtractor.analyze_endgame_patterns
    rw [if_pos (by decide : long_game_many_pieces.result = "1-0" ∨
        long_game_many_pieces.result = "0-1" ∨
        long_game_many_pieces.result = "1/2-1/2")]
    rw [if_pos (by decide : 20 < long_game_many_pieces.ply_count)]
    rw [if_neg (by decide : ¬ long_game_many_pieces.final_piece_count ≤ 10)]
    rfl

/-- C6 (amended). For a game with a decisive or drawn result header and
more than 20 plies, the endgame accumulation happens IFF the final
position has at most 10 pieces: in that case the signature's count is
bumped and its success contribution added; with more than 10 pieces the
store is returned unchanged. -/
theorem C6_endgame_accumulation (store : PatternExtractor.EndgameStore)
    (g : PatternExtractor.GameSummary)
    (hres : g.result = "1-0" ∨ g.result = "0-1" ∨ g.result = "1/2-1/2")
    (hply : 20 < g.ply_count) :
    (g.final_piece_count ≤ 10 →
      PatternExtractor.extract_game_endgame store g g.final_signature =
        ⟨(store g.final_signature).count + 1,
          (store g.final_signature).success +
            PatternExtractor.success_increment g.result g.final_turn⟩) ∧
    (10 < g.final_piece_count →
      PatternExtractor.extract_game_endgame store g = store) := by
  unfold PatternExtractor.extract_game_endgame
    PatternExtractor.analyze_endgame_patterns
  rw [if_pos hres, if_pos hply]
  constructor
  · intro hpc
    rw [if_pos hpc]
    simp
  · intro hpc
    rw [if_neg (by omega)]

/-- C6 witness: the amended theorem on a decisive 30-ply game ending with
8 pieces; the fresh store's entry for its signature becomes count 1,
success 1. -/
theorem C6_endgame_accumulation_witness :
    PatternExtractor.extract_game_endgame
        PatternExtractor.empty_endgame_store long_game_few_pieces
        long_game_few_pieces.final_signature =
      ⟨1, 1⟩ := by
  have h := (C6_endgame_accumulation PatternExtractor.empty_endgame_store
    long_game_few_pieces (Or.inl rfl) (by decide)).1 (by decide)
  rw [h]
  norm_num [PatternExtractor.empty_endgame_store,
    PatternExtractor.success_increment, long_game_few_pieces]

/-- Helper: `py_int` applied to the floor/cap combination at the end of
`calculate_think_time` is at most one-third of the remaining time, and at
least 1 whenever at least 3 ms remain. -/
theorem py_int_think_time_bounds (x rt : ℚ) (h0 : 0 ≤ rt) :
    ((py_int (min (max (x - 50) 1) (rt / 3)) : ℤ) : ℚ) ≤ rt / 3 ∧
      (3 ≤ rt → 1 ≤ py_int (min (max (x - 50) 1) (rt / 3))) := by
  have hq1 : (1 : ℚ) ≤ max (x - 50) 1 := le_max_right _ _
  have hq0 : 0 ≤ min (max (x - 50) 1) (rt / 3) :=
    le_min (le_trans zero_le_one hq1) (by positivity)
  have hpy : py_int (min (max (x - 50) 1) (rt / 3)) =
      ⌊min (max (x - 50) 1) (rt / 3)⌋ := by
    unfold py_int
    rw [if_pos hq0]
  constructor
  · rw [hpy]
    exact le_trans (Int.floor_le _) (min_le_right _ _)
  · intro h3
    rw [hpy, Int.le_floor]
    push_cast
    refine le_min hq1 ?_
    linarith

/-- C8 (counterexample). With 2 ms on the clock (no increment, no
movestogo, opening phase, default timing factor 0.5) the computed think
time is 0 ms — not positive — because the 1 ms floor is applied BEFORE
the one-third cap and the integer truncation. -/
theorem C8_zero_think_time_counterexample :
    UCI.calculate_think_time none (some 2) none none "opening" (1/2) = 0 := by
  have hred : UCI.calculate_think_time none (some 2) none none "opening"
      (1/2) =
      py_int (min (max (((2 : ℚ) / ((UCI.moves_remaining_for "opening" : ℕ)
        : ℚ) * (3/4)) * (1/2) - 50) 1) ((2 : ℚ) / 3)) := rfl
  rw [hred]
  norm_num [UCI.moves_remaining_for, py_int]

/-- C8 (amended). Whenever the think time is computed from the clock
(no movetime, side-to-move clock given, any increment/movestogo/phase and
any timing factor), it never exceeds one-third of the remaining time; the
1 ms floor is guaranteed only when at least 3 ms remain — with less, the
cap and truncation can drive the result to 0. -/
theorem C8_clock_think_time_bounds (inc movestogo : Option ℚ)
    (phase : String) (s rt : ℚ) (h0 : 0 ≤ rt) :
    ((UCI.calculate_think_time none (some rt) inc movestogo phase s : ℤ)
        : ℚ) ≤ rt / 3 ∧
      (3 ≤ rt →
        1 ≤ UCI.calculate_think_time none (some rt) inc movestogo phase s) := by
  have hred : UCI.calculate_think_time none (some rt) inc movestogo phase s =
      py_int (min
        (max
          ((if 0 < inc.getD 0 then
              rt / (match movestogo with
                | some mtg => mtg
                | none => ((UCI.moves_remaining_for phase : ℕ) : ℚ)) +
                inc.getD 0 * (3/4)
            else
              rt / (match movestogo with
                | some mtg => mtg
                | none => ((UCI.moves_remaining_for phase : ℕ) : ℚ)) *
                (3/4)) *
            s - 50)
          1)
        (rt / 3)) := rfl
  rw [hred]
  exact py_int_think_time_bounds _ rt h0

/-- C8 witness: with 300 ms on the clock the computed think time is capped
by 100 ms and is at least 1 ms. -/
theorem C8_clock_think_time_bounds_witness :
    ((UCI.calculate_think_time none (some 300) none none "opening" (1/2)
        : ℤ) : ℚ) ≤ 300 / 3 ∧
      1 ≤ UCI.calculate_think_time none (some 300) none none "opening"
        (1/2) :=
  ⟨(C8_clock_think_time_bounds none none "opening" (1/2) 300
      (by norm_num)).1,
    (C8_clock_think_time_bounds none none "opening" (1/2) 300
      (by norm_num)).2 (by norm_num)⟩

/-- C3 (counterexample). On a one-key table whose key has count 12 and
win contribution 7, the compressed entry's `success` is the rounded
0.583, not `winContribution/count = 7/12 = 0.58333...`: the claim's exact
formula does not hold because the code rounds to three decimal places. -/
theorem C3_rounding_counterexample :
    PatternExtractor.compress_opening_patterns sample_opening_store =
      [("1_e4", ⟨3/250, 583/1000, 7/100⟩)] ∧
      ((583 : ℚ) / 1000 ≠ 7 / 12) := by
  constructor
  · have hkeep : PatternExtractor.opening_keep ⟨12, 7⟩ = true := by
      simp only [PatternExtractor.opening_keep, Bool.and_eq_true,
        decide_eq_true_eq]
      norm_num
    have hentry : PatternExtractor.opening_entry_of ⟨12, 7⟩ =
        (⟨3/250, 583/1000, 7/100⟩ : PatternExtractor.OpeningEntry) := by
      simp only [PatternExtractor.opening_entry_of,
        PatternExtractor.OpeningEntry.mk.injEq]
      norm_num [round3, round_half_even]
    have hdef : PatternExtractor.compress_opening_patterns
        sample_opening_store =
        (((sample_opening_store.filter
            fun kd => PatternExtractor.opening_keep kd.2).map
          fun kd => (kd.1, PatternExtractor.opening_entry_of kd.2)).mergeSort
          fun a b => decide (b.2.weight ≤ a.2.weight)).take 500 := rfl
    rw [hdef]
    have hfil : (sample_opening_store.filter
        fun kd => PatternExtractor.opening_keep kd.2) =
        [("1_e4", ⟨12, 7⟩)] := by
      simp [sample_opening_store, List.filter_cons, hkeep]
    rw [hfil]
    simp only [List.map_cons, List.map_nil]
    rw [List.Perm.eq_singleton (List.mergeSort_perm _ _)]
    simp [hentry]
  · norm_num

/-- C3 (amended). `_compress_opening_patterns` keeps only keys with
count ≥ 10 and success rate ≥ 0.45, storing
`frequency = min(count/1000, 1)`, `success = round(rate, 3)` and
`weight = round(rate * count/100, 3)` — the claim's formulas hold only up
to this rounding to three decimal places — and retains the top 500
entries by the stored weight, descending: at most 500 entries come out,
in weight-descending order; when at most 500 keys qualify every
qualifying key is retained; any qualifying key that is dropped has
weight no greater than that of every retained entry; and when more than
500 keys qualify exactly 500 are retained. -/
theorem C3_opening_compression_characterization
    (patterns : List (String × PatternExtractor.OpeningData)) :
    (∀ k e, (k, e) ∈ PatternExtractor.compress_opening_patterns patterns →
      ∃ d, (k, d) ∈ patterns ∧ 10 ≤ d.count ∧
        45/100 ≤ d.wins / (d.count : ℚ) ∧
        e.frequency = min ((d.count : ℚ) / 1000) 1 ∧
        e.success = round3 (d.wins / (d.count : ℚ)) ∧
        e.weight =
          round3 ((d.wins / (d.count : ℚ)) * ((d.count : ℚ) / 100))) ∧
    (PatternExtractor.compress_opening_patterns patterns).length ≤ 500 ∧
    List.Pairwise (fun a b => b.2.weight ≤ a.2.weight)
      (PatternExtractor.compress_opening_patterns patterns) ∧
    ((patterns.filter
        fun kd => PatternExtractor.opening_keep kd.2).length ≤ 500 →
      ∀ k d, (k, d) ∈ patterns → PatternExtractor.opening_keep d = true →
        (k, PatternExtractor.opening_entry_of d) ∈
          PatternExtractor.compress_opening_patterns patterns) ∧
    (∀ k d, (k, d) ∈ patterns → PatternExtractor.opening_keep d = true →
      (k, PatternExtractor.opening_entry_of d) ∉
        PatternExtractor.compress_opening_patterns patterns →
      ∀ k' e',
        (k', e') ∈ PatternExtractor.compress_opening_patterns patterns →
        (PatternExtractor.opening_entry_of d).weight ≤ e'.weight) ∧
    (500 ≤ (patterns.filter
        fun kd => PatternExtractor.opening_keep kd.2).length →
      (PatternExtractor.compress_opening_patterns patterns).length = 500) := by
  have hdef : PatternExtractor.compress_opening_patterns patterns =
      (((patterns.filter fun kd => PatternExtractor.opening_keep kd.2).map
          fun kd => (kd.1, PatternExtractor.opening_entry_of kd.2)).mergeSort
        fun a b => decide (b.2.weight ≤ a.2.weight)).take 500 := rfl
  have hperm := List.mergeSort_perm
    ((patterns.filter fun kd => PatternExtractor.opening_keep kd.2).map
      fun kd => (kd.1, PatternExtractor.opening_entry_of kd.2))
    (fun a b => decide (b.2.weight ≤ a.2.weight))
  have htrans : ∀ a b c : String × PatternExtractor.OpeningEntry,
      decide (b.2.weight ≤ a.2.weight) = true →
      decide (c.2.weight ≤ b.2.weight) = true →
      decide (c.2.weight ≤ a.2.weight) = true := by
    intro a b c hab hbc
    rw [decide_eq_true_eq] at hab hbc ⊢
    exact le_trans hbc hab
  have htotal : ∀ a b : String × PatternExtractor.OpeningEntry,
      (decide (b.2.weight ≤ a.2.weight) ||
        decide (a.2.weight ≤ b.2.weight)) = true := by
    intro a b
    rcases le_total b.2.weight a.2.weight with h | h
    · simp [h]
    · simp [h]
  have hsorted := List.sorted_mergeSort htrans htotal
    ((patterns.filter fun kd => PatternExtractor.opening_keep kd.2).map
      fun kd => (kd.1, PatternExtractor.opening_entry_of kd.2))
  have hsorted2 := hsorted.imp
    (fun {a b} h => (of_decide_eq_true h :
      b.2.weight ≤ a.2.weight))
  refine ⟨?_, ?_, ?_, ?_, ?_, ?_⟩
  · intro k e hmem
    rw [hdef] at hmem
    have h2 := hperm.mem_iff.mp (List.mem_of_mem_take hmem)
    obtain ⟨⟨k', d⟩, hkd, heq⟩ := List.mem_map.mp h2
    obtain ⟨hkdmem, hkeep⟩ := List.mem_filter.mp hkd
    rw [Prod.mk.injEq] at heq
    obtain ⟨hk, he⟩ := heq
    subst hk
    subst he
    simp only [PatternExtractor.opening_keep, Bool.and_eq_true,
      decide_eq_true_eq] at hkeep
    exact ⟨d, hkdmem, hkeep.1, hkeep.2, rfl, rfl, rfl⟩
  · rw [hdef]
    exact List.length_take_le _ _
  · rw [hdef]
    exact List.Pairwise.sublist (List.take_sublist _ _) hsorted2
  · intro hlen k d hmem hkeep
    have hc : (k, PatternExtractor.opening_entry_of d) ∈
        (patterns.filter fun kd => PatternExtractor.opening_keep kd.2).map
          fun kd => (kd.1, PatternExtractor.opening_entry_of kd.2) :=
      List.mem_map.mpr ⟨(k, d), List.mem_filter.mpr ⟨hmem, hkeep⟩, rfl⟩
    have hlen2 : (((patterns.filter
        fun kd => PatternExtractor.opening_keep kd.2).map
          fun kd => (kd.1, PatternExtractor.opening_entry_of kd.2)).mergeSort
        fun a b => decide (b.2.weight ≤ a.2.weight)).length ≤ 500 := by
      rw [List.length_mergeSort, List.length_map]
      exact hlen
    rw [hdef, List.take_of_length_le hlen2]
    exact hperm.mem_iff.mpr hc
  · intro k d hmem hkeep hnot k' e' hmem'
    have hc : (k, PatternExtractor.opening_entry_of d) ∈
        (patterns.filter fun kd => PatternExtractor.opening_keep kd.2).map
          fun kd => (kd.1, PatternExtractor.opening_entry_of kd.2) :=
      List.mem_map.mpr ⟨(k, d), List.mem_filter.mpr ⟨hmem, hkeep⟩, rfl⟩
    have hs := hperm.mem_iff.mpr hc
    rw [hdef] at hnot hmem'
    have hsplit := List.take_append_drop 500
      ((((patterns.filter
          fun kd => PatternExtractor.opening_keep kd.2).map
        fun kd => (kd.1, PatternExtractor.opening_entry_of kd.2)).mergeSort
        fun a b => decide (b.2.weight ≤ a.2.weight)))
    have hdropmem : (k, PatternExtractor.opening_entry_of d) ∈
        ((((patterns.filter
            fun kd => PatternExtractor.opening_keep kd.2).map
          fun kd => (kd.1, PatternExtractor.opening_entry_of kd.2)).mergeSort
          fun a b => decide (b.2.weight ≤ a.2.weight)).drop 500) := by
      rcases List.mem_append.mp (by rw [hsplit]; exact hs) with h | h
      · exact absurd h hnot
      · exact h
    have hcross :=
      (List.pairwise_append.mp (by rw [hsplit]; exact hsorted2)).2.2
    exact hcross _ hmem' _ hdropmem
  · intro hge
    have hlen3 : 500 ≤ ((((patterns.filter
        fun kd => PatternExtractor.opening_keep kd.2).map
          fun kd => (kd.1, PatternExtractor.opening_entry_of kd.2)).mergeSort
        fun a b => decide (b.2.weight ≤ a.2.weight))).length := by
      rw [List.length_mergeSort, List.length_map]
      exact hge
    rw [hdef, List.length_take]
    omega

/-- C3 witness: the amended theorem's retention clause on the one-key
table: the key with count 12, win contribution 7 appears in the
compressed output. -/
theorem C3_opening_compression_witness :
    ("1_e4", PatternExtractor.opening_entry_of ⟨12, 7⟩) ∈
      PatternExtractor.compress_opening_patterns sample_opening_store :=
  (C3_opening_compression_characterization sample_opening_store).2.2.2.1
    (le_trans (List.length_filter_le _ _)
      (by norm_num [sample_opening_store]))
    "1_e4" ⟨12, 7⟩ (List.mem_singleton.mpr rfl)
    (by
      simp only [PatternExtractor.opening_keep, Bool.and_eq_true,
        decide_eq_true_eq]
      norm_num)
